import Mathlib

/-!
Verification of the typed heterogeneous state-variable store ("ledger",
class `neml::History` of `src/src/history.h`) of the NEML material-point
constitutive modeling library.

The C++ `double` scalars are modelled as exact rationals: the ledger only
stores, copies and moves them between memory locations, so "bit-exact" is
equality of the modelled values.  The `storage_` pointer together with the
heap array behind it is modelled as the list of scalars it points to; the
two `std::map` fields are modelled as association lists with unique keys
(the `std::map` key ordering plays no role in any property proved here).

Member-function bodies that live in `history.cxx` are not part of the
sources; where a claim depends on one, it is modelled from the spec and the
doc comment says so explicitly.
-/

set_option maxHeartbeats 1000000
set_option maxRecDepth 4000

namespace neml

/-- Enum of the allowable storage types (`StorageType`, src/src/history.h
lines 13-21): TYPE_VECTOR, TYPE_SCALAR, TYPE_ARRAY, TYPE_RANKTWO,
TYPE_SYMMETRIC, TYPE_SKEW, TYPE_ROT. -/
inductive StorageType where
  | TYPE_VECTOR
  | TYPE_SCALAR
  | TYPE_ARRAY
  | TYPE_RANKTWO
  | TYPE_SYMMETRIC
  | TYPE_SKEW
  | TYPE_ROT
deriving DecidableEq

/-- The closed set of C++ value types for which the registry templates
`GetStorageType` and `GetStorageSize` have explicit specializations
(src/src/history.h lines 24-39): `Vector`, `RankTwo`, `Symmetric`, `Skew`,
`Orientation` and `double`.  The primary templates are declared but never
defined, so instantiating either registry function at any other type fails
to compile; that closedness is embedded by making this inductive type
closed. -/
inductive ValueType where
  | Vector
  | RankTwo
  | Symmetric
  | Skew
  | Orientation
  | Double
deriving DecidableEq

/-- Compile-time map from a value type to its run-time type tag
(`GetStorageType`, src/src/history.h lines 24-30). -/
def GetStorageType : ValueType → StorageType
  | .Vector => .TYPE_VECTOR
  | .RankTwo => .TYPE_RANKTWO
  | .Symmetric => .TYPE_SYMMETRIC
  | .Skew => .TYPE_SKEW
  | .Orientation => .TYPE_ROT
  | .Double => .TYPE_SCALAR

/-- Compile-time map from a value type to its storage footprint in scalars
(`GetStorageSize`, src/src/history.h lines 33-39). -/
def GetStorageSize : ValueType → Nat
  | .Vector => 3
  | .RankTwo => 9
  | .Symmetric => 6
  | .Skew => 3
  | .Orientation => 4
  | .Double => 1

/-- Footprint as a function of the run-time tag, obtained by transporting
`GetStorageSize` along `GetStorageType`.  `TYPE_ARRAY` is the image of no
value type and never occupies a declared slot; it is assigned footprint 0
here only so that the function is total. -/
def tagFootprint : StorageType → Nat
  | .TYPE_VECTOR => 3
  | .TYPE_SCALAR => 1
  | .TYPE_ARRAY => 0
  | .TYPE_RANKTWO => 9
  | .TYPE_SYMMETRIC => 6
  | .TYPE_SKEW => 3
  | .TYPE_ROT => 4

/-- Error kinds raised by the ledger.  The bodies of `error_if_exists_`,
`error_if_not_exists_`, `error_if_wrong_type_` and `resize` live in
`history.cxx`, which is not among the sources; the kinds are the spec's
error taxonomy (spec section 7). -/
inductive HError where
  | DuplicateDeclaration
  | UnknownName
  | TypeMismatch
  | UnsupportedResize
deriving DecidableEq

/-- The ledger (`class History`, src/src/history.h lines 41-122):
`size_` the total scalar count, `store_` whether the ledger owns its
storage, `storage_` the backing buffer, `loc_` the name-to-offset map and
`type_` the name-to-type-tag map. -/
structure History where
  size_ : Nat
  store_ : Bool
  storage_ : List ℚ
  loc_ : List (String × Nat)
  type_ : List (String × StorageType)

/-- Lookup in a `std::map` modelled as an association list
(`map::at` on a present key / `map::count` for presence). -/
def mapFind {β : Type} : List (String × β) → String → Option β
  | [], _ => none
  | (k, v) :: rest, n => if k = n then some v else mapFind rest n

/-- Modelled from the spec: the `History(bool store)` constructor (declared
src/src/history.h line 44, body in `history.cxx`, not among the sources) —
a ledger is "created empty (owning, size 0)" or "as a non-owning alias";
either way it starts with no slots and no storage. -/
def History.mk0 (store : Bool) : History :=
  { size_ := 0, store_ := store, storage_ := [], loc_ := [], type_ := [] }

/-- Modelled from the spec: the default `History()` constructor (declared
src/src/history.h line 43, body not among the sources) — "created empty
(owning, size 0)". -/
def History.empty : History := History.mk0 true

/-- The `size()` accessor (src/src/history.h line 68). -/
def History.size (h : History) : Nat := h.size_

/-- Modelled from the spec: `History::resize` (declared src/src/history.h
line 99, body in `history.cxx`, not among the sources) — "grows owning
storage by `increment` scalars, preserving existing contents at their
existing offsets ...; on a non-owning ledger this fails, since foreign
memory cannot be grown."  The freshly allocated scalars are modelled as
zeros; no claim depends on their initial values. -/
def History.resize (h : History) (inc : Nat) : Except HError History :=
  if h.store_ then
    .ok { h with size_ := h.size_ + inc,
                 storage_ := h.storage_ ++ List.replicate inc 0 }
  else
    .error .UnsupportedResize

/-- `History::add<T>` (src/src/history.h lines 71-78): check the name is
fresh, insert `(name, size_)` into `loc_` and `(name, GetStorageType<T>)`
into `type_`, then `resize(GetStorageSize<T>())`.  A C++ exception leaves
the object in its state at the throw point, so the result carries both the
resulting ledger state and the error, if any: on a duplicate name nothing
has been touched yet; on a resize failure the two map insertions have
already happened. -/
def History.add (h : History) (T : ValueType) (name : String) :
    History × Option HError :=
  if (mapFind h.loc_ name).isSome then
    (h, some .DuplicateDeclaration)
  else
    let h1 : History := { h with loc_ := (name, h.size_) :: h.loc_,
                                 type_ := (name, GetStorageType T) :: h.type_ }
    match h1.resize (GetStorageSize T) with
    | .ok h2 => (h2, none)
    | .error e => (h1, some e)

/-- A typed view into the buffer, as constructed by `T(&storage_[loc])` in
`History::get` (src/src/history.h line 88): the value type and the scalar
offset the view's pointer addresses.  The view spans
`GetStorageSize vt` scalars starting at `offset`. -/
structure TypedView where
  vt : ValueType
  offset : Nat
deriving DecidableEq

/-- `History::get<T>` (src/src/history.h lines 83-89): raise unknown-name
if the name is absent, raise type-mismatch if the recorded tag differs from
`GetStorageType<T>`, otherwise construct a typed view over
`&storage_[loc_.at(name)]`.  No buffer memory is read or written by `get`
itself: the view only captures the address.  (The error helpers' bodies are
not among the sources; their kinds follow the spec's taxonomy.) -/
def History.get (h : History) (T : ValueType) (name : String) :
    Except HError TypedView :=
  match mapFind h.loc_ name with
  | none => .error .UnknownName
  | some off =>
    match mapFind h.type_ name with
    | none => .error .UnknownName
    | some tag =>
      if tag = GetStorageType T then .ok ⟨T, off⟩
      else .error .TypeMismatch

/-- The `double` specialization of `get` (src/src/history.h lines 124-133):
same checks, but `return storage_[loc_.at(name)]` — a direct reference to
the single backing scalar, modelled as its index into the buffer. -/
def History.getDouble (h : History) (name : String) : Except HError Nat :=
  match mapFind h.loc_ name with
  | none => .error .UnknownName
  | some off =>
    match mapFind h.type_ name with
    | none => .error .UnknownName
    | some tag =>
      if tag = GetStorageType .Double then .ok off
      else .error .TypeMismatch

/-- Overwrite the region `[off, off + v.length)` of a buffer.  Modelled from
the spec: the typed view constructors (the tensor classes, not among the
sources) — "writes through the handle must touch only that region"
(spec section 4.3). -/
def writeAt (s : List ℚ) (off : Nat) (v : List ℚ) : List ℚ :=
  s.take off ++ v ++ s.drop (off + v.length)

/-- Read the `len` scalars starting at `off` of a buffer — what a typed view
over `&s[off]` exposes. -/
def readAt (s : List ℚ) (off len : Nat) : List ℚ :=
  (s.drop off).take len

/-- Writing a value through a typed view: the buffer region the view
addresses is overwritten, everything else in the ledger is untouched. -/
def History.write (h : History) (w : TypedView) (v : List ℚ) : History :=
  { h with storage_ := writeAt h.storage_ w.offset v }

/-- Reading a value back through a typed view: the `GetStorageSize w.vt`
scalars starting at the view's offset. -/
def History.read (h : History) (w : TypedView) : List ℚ :=
  readAt h.storage_ w.offset (GetStorageSize w.vt)

/-- Assignment through the `double &` returned by the scalar `get`
specialization: overwrite the single scalar at that index. -/
def History.setDouble (h : History) (i : Nat) (v : ℚ) : History :=
  { h with storage_ := h.storage_.set i v }

/-- The non-const accessor `get_loc()` (src/src/history.h line 95) exposes
the offset map itself. -/
def History.get_loc (h : History) : List (String × Nat) := h.loc_

/-- The non-const accessor `get_type()` (src/src/history.h line 96) exposes
the type-tag map itself. -/
def History.get_type (h : History) : List (String × StorageType) := h.type_

/-- Mutation through the live reference returned by the non-const
`get_loc()` (src/src/history.h line 95): the caller can replace the offset
map's contents arbitrarily; nothing else of the ledger changes and no
check runs. -/
def History.set_loc (h : History) (m : List (String × Nat)) : History :=
  { h with loc_ := m }

/-- Mutation through the live reference returned by the non-const
`get_type()` (src/src/history.h line 96). -/
def History.set_type (h : History) (m : List (String × StorageType)) : History :=
  { h with type_ := m }

/-- Both `History::get` (src/src/history.h line 84) and its `double`
specialization (line 128) are declared as `const` member functions, and the
class has no non-const overload of either: the single `get` entry point is
usable through a const `History` handle.  This constant transcribes that
declaration-level fact. -/
def getIsConstMember : Bool := true

/-- A sequence of declarations, executed left to right with `History::add`;
a failed `add` leaves its (possibly partially modified) ledger, exactly as
the C++ object survives the throw. -/
def declareAll (h : History) : List (ValueType × String) → History
  | [] => h
  | (T, n) :: l => declareAll (h.add T n).1 l

/-- A ledger obtained from the initially empty owning ledger by a sequence
of declarations. -/
def buildLedger (l : List (ValueType × String)) : History :=
  declareAll History.empty l

/-- Total footprint of a declaration sequence. -/
def totalSize : List (ValueType × String) → Nat
  | [] => 0
  | (T, _) :: l => GetStorageSize T + totalSize l

/-- The layout a declaration sequence produces when started at base offset
`a`: each slot's name, offset (running total of prior footprints) and value
type, in declaration order. -/
def layout : List (ValueType × String) → Nat → List (String × Nat × ValueType)
  | [], _ => []
  | (T, n) :: l, a => (n, a, T) :: layout l (a + GetStorageSize T)

/-- Footprint of a declared name, read off the ledger's type map. -/
def slotFootprint (h : History) (name : String) : Nat :=
  match mapFind h.type_ name with
  | some t => tagFootprint t
  | none => 0

/-- The half-open scalar-index range a `loc_` entry occupies. -/
def slotRange (h : History) (p : String × Nat) : Finset Nat :=
  Finset.Ico p.2 (p.2 + slotFootprint h p.1)

/-- Union of a list of finite sets. -/
def unionList (L : List (Finset Nat)) : Finset Nat :=
  L.foldr (fun s t => s ∪ t) ∅

/-- Projection of a layout entry to its `loc_` map entry. -/
def projLoc (x : String × Nat × ValueType) : String × Nat := (x.1, x.2.1)

/-- Projection of a layout entry to its `type_` map entry. -/
def projType (x : String × Nat × ValueType) : String × StorageType :=
  (x.1, GetStorageType x.2.2)

/-- Transporting the footprint registry along the tag registry recovers the
footprint: for every supported value type, the footprint of its tag is its
own footprint. -/
theorem tagFootprint_type (T : ValueType) :
    tagFootprint (GetStorageType T) = GetStorageSize T := by
  cases T <;> rfl

/-- In an association list with pairwise distinct keys, lookup of a member's
key returns that member's value. -/
theorem mapFind_eq_of_mem {β : Type} :
    ∀ (L : List (String × β)) (p : String × β),
      (L.map Prod.fst).Nodup → p ∈ L → mapFind L p.1 = some p.2 := by
  intro L
  induction L with
  | nil =>
    intro p _ hp
    simp at hp
  | cons q L ih =>
    intro p hnd hp
    obtain ⟨k, v⟩ := q
    simp only [List.map_cons, List.nodup_cons] at hnd
    rcases List.mem_cons.mp hp with h | h
    · subst h
      simp [mapFind]
    · have hk : k ≠ p.1 := by
        intro he
        exact hnd.1 (he ▸ List.mem_map_of_mem Prod.fst h)
      simp only [mapFind, if_neg hk]
      exact ih p hnd.2 h

/-- A fresh-name declaration into an owning ledger: the offset map gains
`(name, old size)`, the type map gains the tag of `T`, the size grows by the
footprint of `T`, the storage grows accordingly, and no error is raised. -/
theorem add_fresh (h : History) (T : ValueType) (n : String)
    (hs : h.store_ = true) (hf : mapFind h.loc_ n = none) :
    (h.add T n).1.size_ = h.size_ + GetStorageSize T ∧
    (h.add T n).1.store_ = true ∧
    (h.add T n).1.storage_ = h.storage_ ++ List.replicate (GetStorageSize T) 0 ∧
    (h.add T n).1.loc_ = (n, h.size_) :: h.loc_ ∧
    (h.add T n).1.type_ = (n, GetStorageType T) :: h.type_ ∧
    (h.add T n).2 = none := by
  simp [History.add, History.resize, hf, hs]

/-- Characterization of a successful declaration sequence run against any
owning ledger whose existing names are disjoint from the sequence: the
resulting size, storage, offset map and type map are those of `layout`. -/
theorem declareAll_spec :
    ∀ (l : List (ValueType × String)) (h : History),
      h.store_ = true →
      (∀ x ∈ l, mapFind h.loc_ x.2 = none) →
      (l.map Prod.snd).Nodup →
      (declareAll h l).size_ = h.size_ + totalSize l ∧
      (declareAll h l).store_ = true ∧
      (declareAll h l).storage_ = h.storage_ ++ List.replicate (totalSize l) 0 ∧
      (declareAll h l).loc_ = ((layout l h.size_).map projLoc).reverse ++ h.loc_ ∧
      (declareAll h l).type_ = ((layout l h.size_).map projType).reverse ++ h.type_ := by
  intro l
  induction l with
  | nil =>
    intro h hs _ _
    simp [declareAll, totalSize, layout]
    exact hs
  | cons p l ih =>
    intro h hs hf hnd
    obtain ⟨T, n⟩ := p
    have hfn : mapFind h.loc_ n = none := hf (T, n) (List.mem_cons_self _ _)
    obtain ⟨e1, e2, e3, e4, e5, e6⟩ := add_fresh h T n hs hfn
    simp only [List.map_cons, List.nodup_cons] at hnd
    have hf1 : ∀ x ∈ l, mapFind (h.add T n).1.loc_ x.2 = none := by
      intro x hx
      have hne : n ≠ x.2 := by
        intro he
        exact hnd.1 (he ▸ List.mem_map_of_mem Prod.snd hx)
      rw [e4]
      simp only [mapFind, if_neg hne]
      exact hf x (List.mem_cons_of_mem _ hx)
    obtain ⟨g1, g2, g3, g4, g5⟩ := ih (h.add T n).1 e2 hf1 hnd.2
    have hda : declareAll h ((T, n) :: l) = declareAll (h.add T n).1 l := rfl
    refine ⟨?_, ?_, ?_, ?_, ?_⟩
    · rw [hda, g1, e1]
      simp only [totalSize]
      omega
    · rw [hda]
      exact g2
    · rw [hda, g3, e3, List.append_assoc, ← List.replicate_add]
      rfl
    · rw [hda, g4, e4, e1]
      simp [layout, projLoc, List.reverse_cons, List.append_assoc]
    · rw [hda, g5, e5, e1]
      simp [layout, projType, List.reverse_cons, List.append_assoc]

/-- The names of a layout are the names of the declaration sequence, in
order. -/
theorem layout_names :
    ∀ (l : List (ValueType × String)) (a : Nat),
      (layout l a).map (fun x => x.1) = l.map Prod.snd := by
  intro l
  induction l with
  | nil => intro a; rfl
  | cons p l ih =>
    intro a
    obtain ⟨T, n⟩ := p
    simp [layout, ih]

/-- Every layout entry lies inside the window
`[base, base + total footprint)`. -/
theorem layout_mem_bounds :
    ∀ (l : List (ValueType × String)) (a : Nat) (x : String × Nat × ValueType),
      x ∈ layout l a →
      a ≤ x.2.1 ∧ x.2.1 + GetStorageSize x.2.2 ≤ a + totalSize l := by
  intro l
  induction l with
  | nil =>
    intro a x hx
    simp [layout] at hx
  | cons p l ih =>
    intro a x hx
    obtain ⟨T, n⟩ := p
    simp only [layout, List.mem_cons] at hx
    rcases hx with h | h
    · subst h
      simp only [totalSize]
      omega
    · have := ih (a + GetStorageSize T) x h
      simp only [totalSize]
      omega

/-- Layout entries appear in strictly increasing, non-overlapping order:
each earlier slot ends no later than a later slot begins. -/
theorem layout_pairwise :
    ∀ (l : List (ValueType × String)) (a : Nat),
      (layout l a).Pairwise
        (fun x y => x.2.1 + GetStorageSize x.2.2 ≤ y.2.1) := by
  intro l
  induction l with
  | nil => intro a; simp [layout]
  | cons p l ih =>
    intro a
    obtain ⟨T, n⟩ := p
    refine List.Pairwise.cons ?_ (ih (a + GetStorageSize T))
    intro y hy
    have := layout_mem_bounds l (a + GetStorageSize T) y hy
    simp only
    omega

/-- Unfolding lemma: the union of a consed list. -/
theorem unionList_cons (s : Finset Nat) (L : List (Finset Nat)) :
    unionList (s :: L) = s ∪ unionList L := rfl

/-- The union of an appended list is the union of the unions. -/
theorem unionList_append :
    ∀ (L M : List (Finset Nat)),
      unionList (L ++ M) = unionList L ∪ unionList M := by
  intro L M
  induction L with
  | nil => simp [unionList]
  | cons s L ih =>
    rw [List.cons_append, unionList_cons, unionList_cons, ih,
        Finset.union_assoc]

/-- Reversing a list of sets does not change their union. -/
theorem unionList_reverse :
    ∀ (L : List (Finset Nat)), unionList L.reverse = unionList L := by
  intro L
  induction L with
  | nil => rfl
  | cons s L ih =>
    rw [List.reverse_cons, unionList_append, ih, unionList_cons]
    simp [unionList, Finset.union_comm]

/-- The ranges of a layout tile the window exactly: their union is the
half-open interval from the base offset to base plus total footprint. -/
theorem layout_union :
    ∀ (l : List (ValueType × String)) (a : Nat),
      unionList ((layout l a).map
        (fun x => Finset.Ico x.2.1 (x.2.1 + GetStorageSize x.2.2)))
        = Finset.Ico a (a + totalSize l) := by
  intro l
  induction l with
  | nil =>
    intro a
    simp [layout, unionList, totalSize]
  | cons p l ih =>
    intro a
    obtain ⟨T, n⟩ := p
    simp only [layout, List.map_cons, unionList_cons, ih, totalSize]
    rw [← Nat.add_assoc]
    exact Finset.Ico_union_Ico_eq_Ico (Nat.le_add_right _ _) (by omega)

/-- A layout has one entry per declaration. -/
theorem layout_length :
    ∀ (l : List (ValueType × String)) (a : Nat),
      (layout l a).length = l.length := by
  intro l
  induction l with
  | nil => intro a; rfl
  | cons p l ih =>
    intro a
    obtain ⟨T, n⟩ := p
    simp [layout, ih]

/-- The `i`-th layout entry: the `i`-th declared name, at offset base plus
the running total of the footprints of the `i` prior declarations, with the
`i`-th declared type. -/
theorem layout_get :
    ∀ (l : List (ValueType × String)) (a i : Nat)
      (hi : i < l.length) (hi2 : i < (layout l a).length),
      (layout l a).get ⟨i, hi2⟩ =
        ((l.get ⟨i, hi⟩).2, a + totalSize (l.take i), (l.get ⟨i, hi⟩).1) := by
  intro l
  induction l with
  | nil =>
    intro a i hi
    exact absurd hi (by simp)
  | cons p l ih =>
    intro a i hi hi2
    obtain ⟨T, n⟩ := p
    cases i with
    | zero => simp [layout, totalSize]
    | succ i =>
      have hi' : i < l.length := by
        simpa using hi
      have hi2' : i < (layout l (a + GetStorageSize T)).length := by
        rw [layout_length]
        exact hi'
      simp only [layout, List.get_cons_succ]
      rw [ih (a + GetStorageSize T) i hi' hi2']
      simp only [List.take_succ_cons, totalSize]
      rw [Nat.add_assoc]

/-- Overwriting the region `[off, off + v.length)` of a buffer and reading
that region back yields the written value. -/
theorem readAt_writeAt (s : List ℚ) (off : Nat) (v : List ℚ)
    (hb : off + v.length ≤ s.length) :
    readAt (writeAt s off v) off v.length = v := by
  unfold readAt writeAt
  have hlen : (s.take off).length = off := by
    rw [List.length_take]
    omega
  rw [List.append_assoc, List.drop_left' hlen, List.take_left' rfl]

/-- Specialization of `declareAll_spec` to the initially empty owning
ledger. -/
theorem buildLedger_spec (l : List (ValueType × String))
    (hnd : (l.map Prod.snd).Nodup) :
    (buildLedger l).size_ = totalSize l ∧
    (buildLedger l).store_ = true ∧
    (buildLedger l).storage_ = List.replicate (totalSize l) 0 ∧
    (buildLedger l).loc_ = ((layout l 0).map projLoc).reverse ∧
    (buildLedger l).type_ = ((layout l 0).map projType).reverse := by
  have hspec := declareAll_spec l History.empty rfl (fun x _ => rfl) hnd
  simpa [buildLedger, History.empty, History.mk0] using hspec

/-- The keys of the built offset map are the declared names. -/
theorem layout_projLoc_fst (l : List (ValueType × String)) (a : Nat) :
    ((layout l a).map projLoc).map Prod.fst = l.map Prod.snd := by
  rw [List.map_map]
  exact layout_names l a

/-- The keys of the built type map are the declared names. -/
theorem layout_projType_fst (l : List (ValueType × String)) (a : Nat) :
    ((layout l a).map projType).map Prod.fst = l.map Prod.snd := by
  rw [List.map_map]
  exact layout_names l a

/-- With pairwise distinct declared names, the built offset map has
pairwise distinct keys. -/
theorem buildLoc_keys_nodup (l : List (ValueType × String))
    (hnd : (l.map Prod.snd).Nodup) :
    ((((layout l 0).map projLoc).reverse).map Prod.fst).Nodup := by
  rw [List.map_reverse]
  refine List.nodup_reverse.mpr ?_
  rw [layout_projLoc_fst]
  exact hnd

/-- With pairwise distinct declared names, the built type map has pairwise
distinct keys. -/
theorem buildType_keys_nodup (l : List (ValueType × String))
    (hnd : (l.map Prod.snd).Nodup) :
    ((((layout l 0).map projType).reverse).map Prod.fst).Nodup := by
  rw [List.map_reverse]
  refine List.nodup_reverse.mpr ?_
  rw [layout_projType_fst]
  exact hnd

/-- Looking up a layout entry's name in the built type map yields the tag
of its declared value type. -/
theorem buildLedger_findType (l : List (ValueType × String))
    (hnd : (l.map Prod.snd).Nodup) (x : String × Nat × ValueType)
    (hx : x ∈ layout l 0) :
    mapFind (buildLedger l).type_ x.1 = some (GetStorageType x.2.2) := by
  obtain ⟨-, -, -, -, ht⟩ := buildLedger_spec l hnd
  rw [ht]
  have hmem : projType x ∈ ((layout l 0).map projType).reverse :=
    List.mem_reverse.mpr (List.mem_map_of_mem projType hx)
  exact mapFind_eq_of_mem _ (projType x) (buildType_keys_nodup l hnd) hmem

/-- Every entry of the built offset map is the projection of a layout
entry. -/
theorem buildLedger_loc_mem (l : List (ValueType × String))
    (hnd : (l.map Prod.snd).Nodup) (p : String × Nat)
    (hp : p ∈ (buildLedger l).loc_) :
    ∃ x ∈ layout l 0, projLoc x = p := by
  obtain ⟨-, -, -, hl, -⟩ := buildLedger_spec l hnd
  rw [hl, List.mem_reverse] at hp
  exact List.mem_map.mp hp

/-- The slot range of a layout entry's `loc_` projection is the interval
its declared value type's footprint spans. -/
theorem slotRange_of_layout (l : List (ValueType × String))
    (hnd : (l.map Prod.snd).Nodup) (x : String × Nat × ValueType)
    (hx : x ∈ layout l 0) :
    slotRange (buildLedger l) (projLoc x) =
      Finset.Ico x.2.1 (x.2.1 + GetStorageSize x.2.2) := by
  show Finset.Ico x.2.1 (x.2.1 + slotFootprint (buildLedger l) x.1) = _
  unfold slotFootprint
  rw [buildLedger_findType l hnd x hx]
  show Finset.Ico x.2.1 (x.2.1 + tagFootprint (GetStorageType x.2.2)) = _
  rw [tagFootprint_type]

/-- C1: for every sequence of successful declarations of types T_1 ... T_n
into an initially empty ledger (success of the whole sequence is exactly
pairwise-distinct names, since the empty ledger owns its storage), the
assigned offsets satisfy all three invariants: the slots' half-open ranges
`[offset_i, offset_i + footprint(T_i))` are pairwise disjoint, their union
is exactly `[0, size())` — hence has total length `size()` — and every
declared name satisfies
`slot_offset[name] + footprint(slot_type[name]) <= size`. -/
theorem C1_offset_invariants (l : List (ValueType × String))
    (hnd : (l.map Prod.snd).Nodup) :
    List.Pairwise
      (fun p q => Disjoint (slotRange (buildLedger l) p)
                           (slotRange (buildLedger l) q))
      (buildLedger l).loc_ ∧
    unionList ((buildLedger l).loc_.map (slotRange (buildLedger l)))
      = Finset.range (buildLedger l).size ∧
    (∀ p ∈ (buildLedger l).loc_,
      p.2 + slotFootprint (buildLedger l) p.1 ≤ (buildLedger l).size) := by
  obtain ⟨hsz, -, -, hl, -⟩ := buildLedger_spec l hnd
  refine ⟨?_, ?_, ?_⟩
  · rw [hl, List.pairwise_reverse, List.pairwise_map]
    refine (layout_pairwise l 0).imp_of_mem ?_
    intro x y hx hy hxy
    rw [slotRange_of_layout l hnd x hx, slotRange_of_layout l hnd y hy]
    refine Finset.disjoint_left.mpr ?_
    intro a ha hb
    simp only [Finset.mem_Ico] at ha hb
    omega
  · rw [hl, List.map_reverse, unionList_reverse, List.map_map]
    show unionList ((layout l 0).map
      (fun x => slotRange (buildLedger l) (projLoc x))) = _
    rw [List.map_congr_left (fun x hx => slotRange_of_layout l hnd x hx),
        layout_union]
    unfold History.size
    rw [hsz, Finset.range_eq_Ico, Nat.zero_add]
  · intro p hp
    obtain ⟨x, hx, hpx⟩ := buildLedger_loc_mem l hnd p hp
    subst hpx
    have hb := layout_mem_bounds l 0 x hx
    have hft : slotFootprint (buildLedger l) (projLoc x).1
        = GetStorageSize x.2.2 := by
      show slotFootprint (buildLedger l) x.1 = _
      unfold slotFootprint
      rw [buildLedger_findType l hnd x hx]
      exact tagFootprint_type x.2.2
    rw [hft]
    show x.2.1 + GetStorageSize x.2.2 ≤ (buildLedger l).size_
    rw [hsz]
    omega

/-- Witness for C1 at the spec's end-to-end example: declaring a symmetric
tensor then a scalar. -/
theorem C1_offset_invariants_witness :
    (([(ValueType.Symmetric, "stress"), (ValueType.Double, "hardening")].map
        Prod.snd).Nodup) ∧
    (List.Pairwise
      (fun p q =>
        Disjoint
          (slotRange (buildLedger
            [(ValueType.Symmetric, "stress"), (ValueType.Double, "hardening")]) p)
          (slotRange (buildLedger
            [(ValueType.Symmetric, "stress"), (ValueType.Double, "hardening")]) q))
      (buildLedger
        [(ValueType.Symmetric, "stress"), (ValueType.Double, "hardening")]).loc_ ∧
    unionList
      ((buildLedger
        [(ValueType.Symmetric, "stress"), (ValueType.Double, "hardening")]).loc_.map
        (slotRange (buildLedger
          [(ValueType.Symmetric, "stress"), (ValueType.Double, "hardening")])))
      = Finset.range (buildLedger
          [(ValueType.Symmetric, "stress"), (ValueType.Double, "hardening")]).size ∧
    (∀ p ∈ (buildLedger
        [(ValueType.Symmetric, "stress"), (ValueType.Double, "hardening")]).loc_,
      p.2 + slotFootprint (buildLedger
        [(ValueType.Symmetric, "stress"), (ValueType.Double, "hardening")]) p.1
        ≤ (buildLedger
            [(ValueType.Symmetric, "stress"), (ValueType.Double, "hardening")]).size)) :=
  ⟨by decide, C1_offset_invariants _ (by decide)⟩

/-- C2 (amended): for every OWNING ledger and every name not already
present, `declare<T>(name)` (`History::add<T>`) succeeds, records
`slot_offset[name]` equal to the ledger's size before the call, records
`slot_type[name] = tag(T)` and increases the size by exactly
`footprint(T)`; and on a ledger built from the empty one the offsets are
the running totals of the footprints of all previously declared slots.
(The claim's "for every ledger" fails on a non-owning ledger, where the
spec-modelled `resize` refuses to grow foreign memory, see the
counterexample.) -/
theorem C2_declare_records :
    (∀ (h : History) (T : ValueType) (name : String),
       h.store_ = true → mapFind h.loc_ name = none →
       (h.add T name).2 = none ∧
       mapFind (h.add T name).1.loc_ name = some h.size_ ∧
       mapFind (h.add T name).1.type_ name = some (GetStorageType T) ∧
       (h.add T name).1.size_ = h.size_ + GetStorageSize T) ∧
    (∀ (l : List (ValueType × String)), (l.map Prod.snd).Nodup →
       ∀ (i : Nat) (hi : i < l.length),
         mapFind (buildLedger l).loc_ (l.get ⟨i, hi⟩).2
           = some (totalSize (l.take i))) := by
  constructor
  · intro h T name hs hf
    obtain ⟨e1, e2, e3, e4, e5, e6⟩ := add_fresh h T name hs hf
    refine ⟨e6, ?_, ?_, e1⟩
    · rw [e4]
      simp [mapFind]
    · rw [e5]
      simp [mapFind]
  · intro l hnd i hi
    obtain ⟨-, -, -, hl, -⟩ := buildLedger_spec l hnd
    have hi2 : i < (layout l 0).length := by
      rw [layout_length]
      exact hi
    have hx : (layout l 0).get ⟨i, hi2⟩ ∈ layout l 0 := List.get_mem _ _ _
    have hmem : projLoc ((layout l 0).get ⟨i, hi2⟩)
        ∈ ((layout l 0).map projLoc).reverse :=
      List.mem_reverse.mpr (List.mem_map_of_mem projLoc hx)
    have hfind := mapFind_eq_of_mem _ _ (buildLoc_keys_nodup l hnd) hmem
    rw [layout_get l 0 i hi hi2] at hfind
    rw [hl]
    simpa using hfind

/-- Witness for C2's amended theorem: a scalar declared into the empty
ledger lands at offset 0 with the scalar tag and grows the size to 1, and
in the two-slot example ledger the second name's offset is the footprint of
the first slot. -/
theorem C2_declare_records_witness :
    ((History.empty.add ValueType.Double "a").2 = none ∧
     mapFind (History.empty.add ValueType.Double "a").1.loc_ "a"
       = some History.empty.size_ ∧
     mapFind (History.empty.add ValueType.Double "a").1.type_ "a"
       = some (GetStorageType ValueType.Double) ∧
     (History.empty.add ValueType.Double "a").1.size_
       = History.empty.size_ + GetStorageSize ValueType.Double) ∧
    mapFind (buildLedger
        [(ValueType.Symmetric, "stress"), (ValueType.Double, "hardening")]).loc_
      (([(ValueType.Symmetric, "stress"),
         (ValueType.Double, "hardening")]).get ⟨1, by decide⟩).2
      = some (totalSize
          (([(ValueType.Symmetric, "stress"),
             (ValueType.Double, "hardening")]).take 1)) :=
  ⟨C2_declare_records.1 History.empty ValueType.Double "a" rfl rfl,
   C2_declare_records.2 _ (by decide) 1 (by decide)⟩

/-- Counterexample to C2 as stated: on a NON-owning empty ledger a
fresh-name declaration raises (the spec-modelled `resize` cannot grow
foreign memory) and the size does not increase by `footprint(T)`. -/
theorem C2_declare_records_counterexample :
    ((History.mk0 false).add ValueType.Double "a").2 ≠ none ∧
    ¬ (((History.mk0 false).add ValueType.Double "a").1.size_
        = (History.mk0 false).size_ + GetStorageSize ValueType.Double) := by
  decide

/-- C5 (amended): a `declare` that fails on a DUPLICATE name raises at the
call and leaves the ledger completely unmodified; but a `declare` that
fails in `resize` (non-owning ledger, spec-modelled failure) raises only
after `History::add` has already inserted the name into the offset and type
maps, leaving a partial-success state (size and storage unchanged, maps
modified). -/
theorem C5_failure_semantics :
    (∀ (h : History) (T : ValueType) (name : String),
       (mapFind h.loc_ name).isSome = true →
       (h.add T name).1 = h ∧
       (h.add T name).2 = some HError.DuplicateDeclaration) ∧
    (∀ (h : History) (T : ValueType) (name : String),
       h.store_ = false → mapFind h.loc_ name = none →
       (h.add T name).2 = some HError.UnsupportedResize ∧
       (h.add T name).1.loc_ = (name, h.size_) :: h.loc_ ∧
       (h.add T name).1.type_ = (name, GetStorageType T) :: h.type_ ∧
       (h.add T name).1.size_ = h.size_ ∧
       (h.add T name).1.storage_ = h.storage_) := by
  constructor
  · intro h T name hdup
    simp [History.add, hdup]
  · intro h T name hs hf
    simp [History.add, History.resize, hf, hs]

/-- Witness for C5's amended theorem: re-declaring "a" in a ledger that
already holds it fails with the duplicate error and returns the ledger
unchanged. -/
theorem C5_failure_semantics_witness :
    ((buildLedger [(ValueType.Double, "a")]).add ValueType.Symmetric "a").1
      = buildLedger [(ValueType.Double, "a")] ∧
    ((buildLedger [(ValueType.Double, "a")]).add ValueType.Symmetric "a").2
      = some HError.DuplicateDeclaration :=
  C5_failure_semantics.1 _ ValueType.Symmetric "a" (by decide)

/-- Counterexample to C5 as stated: a failing `declare` (fresh name,
non-owning ledger, so the spec-modelled `resize` raises) does NOT leave the
ledger unmodified — the name has already been inserted into the offset
map. -/
theorem C5_failure_semantics_counterexample :
    (((History.mk0 false).add ValueType.Double "a").2).isSome = true ∧
    ((History.mk0 false).add ValueType.Double "a").1.loc_
      ≠ (History.mk0 false).loc_ := by
  decide

/-- Core round-trip fact shared by the round-trip and the mutable-view
theorems: on a slot declared with the matching tag and lying inside the
buffer, `get` yields the view at the recorded offset, the view survives a
write (the maps are untouched), and reading the view back after writing `v`
through it yields `v`. -/
theorem get_write_read (h : History) (T : ValueType) (name : String)
    (off : Nat) (v : List ℚ)
    (h1 : mapFind h.loc_ name = some off)
    (h2 : mapFind h.type_ name = some (GetStorageType T))
    (h3 : off + GetStorageSize T ≤ h.storage_.length)
    (h4 : v.length = GetStorageSize T) :
    h.get T name = .ok ⟨T, off⟩ ∧
    (h.write ⟨T, off⟩ v).get T name = .ok ⟨T, off⟩ ∧
    (h.write ⟨T, off⟩ v).read ⟨T, off⟩ = v := by
  refine ⟨?_, ?_, ?_⟩
  · simp [History.get, h1, h2]
  · simp [History.get, History.write, h1, h2]
  · show readAt (writeAt h.storage_ off v) off (GetStorageSize T) = v
    rw [← h4]
    exact readAt_writeAt h.storage_ off v (by omega)

/-- C3: for every supported type `T`, every value `v` of type `T` (a
component list of length `footprint(T)`; "bit-exact" and "component-exact"
are equality of the modelled scalar components) and every name declared
with type `T` whose slot lies inside the buffer: writing `v` through the
view obtained from `get<T>(name)` and then reading it back via
`get<T>(name)` yields `v`. -/
theorem C3_roundtrip (h : History) (T : ValueType) (name : String)
    (off : Nat) (v : List ℚ)
    (h1 : mapFind h.loc_ name = some off)
    (h2 : mapFind h.type_ name = some (GetStorageType T))
    (h3 : off + GetStorageSize T ≤ h.storage_.length)
    (h4 : v.length = GetStorageSize T) :
    h.get T name = .ok ⟨T, off⟩ ∧
    (h.write ⟨T, off⟩ v).get T name = .ok ⟨T, off⟩ ∧
    (h.write ⟨T, off⟩ v).read ⟨T, off⟩ = v :=
  get_write_read h T name off v h1 h2 h3 h4

/-- Witness for C3: in the two-slot example ledger, writing the six
components `1 .. 6` into the symmetric-tensor slot and reading them back
returns them unchanged. -/
theorem C3_roundtrip_witness :
    ((buildLedger
        [(ValueType.Symmetric, "stress"), (ValueType.Double, "hardening")]).write
      ⟨ValueType.Symmetric, 0⟩ [1, 2, 3, 4, 5, 6]).read ⟨ValueType.Symmetric, 0⟩
      = [1, 2, 3, 4, 5, 6] :=
  (C3_roundtrip _ ValueType.Symmetric "stress" 0 _
    (by decide) (by decide) (by decide) (by decide)).2.2

/-- C4: `get<T>(name)` fails with the unknown-name error when `name` was
never declared, and with the type-mismatch error when `name` was declared
with a tag different from `tag(T)`; in both failure cases the result is
independent of the buffer contents (no buffer memory is read) and `get`
returns no modified ledger (no buffer memory is written: `get` is a pure
lookup in the two maps). -/
theorem C4_get_errors (h : History) (T : ValueType) (name : String) :
    (mapFind h.loc_ name = none →
       h.get T name = .error HError.UnknownName ∧
       ∀ s : List ℚ,
         ({ h with storage_ := s } : History).get T name
           = .error HError.UnknownName) ∧
    (∀ (off : Nat) (tag : StorageType),
       mapFind h.loc_ name = some off →
       mapFind h.type_ name = some tag →
       tag ≠ GetStorageType T →
       h.get T name = .error HError.TypeMismatch ∧
       ∀ s : List ℚ,
         ({ h with storage_ := s } : History).get T name
           = .error HError.TypeMismatch) := by
  constructor
  · intro hf
    constructor
    · simp [History.get, hf]
    · intro s
      simp [History.get, hf]
  · intro off tag hloc htag hne
    constructor
    · simp [History.get, hloc, htag, hne]
    · intro s
      simp [History.get, hloc, htag, hne]

/-- Witness for C4: in a one-scalar ledger, looking up an undeclared name
fails with the unknown-name error, and looking up the scalar slot at a
tensor type fails with the type-mismatch error. -/
theorem C4_get_errors_witness :
    (buildLedger [(ValueType.Double, "a")]).get ValueType.Symmetric "b"
      = .error HError.UnknownName ∧
    (buildLedger [(ValueType.Double, "a")]).get ValueType.Symmetric "a"
      = .error HError.TypeMismatch :=
  ⟨((C4_get_errors _ ValueType.Symmetric "b").1 (by decide)).1,
   ((C4_get_errors _ ValueType.Symmetric "a").2 0 StorageType.TYPE_SCALAR
      (by decide) (by decide) (by decide)).1⟩

/-- C6: for a name declared with the scalar type, `get<double>(name)`
returns a direct reference to the single backing scalar at
`slot_offset[name]` (modelled as that index into the buffer, not a wrapper
view), and assignment through it changes exactly that buffer element:
element `off` becomes the assigned value, every other index is unchanged,
and the maps and size are untouched. -/
theorem C6_scalar_direct_ref (h : History) (name : String) (off : Nat)
    (v : ℚ)
    (h1 : mapFind h.loc_ name = some off)
    (h2 : mapFind h.type_ name = some StorageType.TYPE_SCALAR)
    (h3 : off < h.storage_.length) :
    h.getDouble name = .ok off ∧
    (h.setDouble off v).storage_[off]? = some v ∧
    (∀ j : Nat, j ≠ off → (h.setDouble off v).storage_[j]? = h.storage_[j]?) ∧
    (h.setDouble off v).loc_ = h.loc_ ∧
    (h.setDouble off v).type_ = h.type_ ∧
    (h.setDouble off v).size_ = h.size_ := by
  refine ⟨?_, ?_, ?_, rfl, rfl, rfl⟩
  · simp [History.getDouble, h1, h2, GetStorageType]
  · show (h.storage_.set off v)[off]? = some v
    exact List.getElem?_set_self h3
  · intro j hj
    show (h.storage_.set off v)[j]? = h.storage_[j]?
    exact List.getElem?_set_ne (Ne.symm hj)

/-- Witness for C6: assigning 3 through the scalar reference for
"hardening" (offset 6) in the two-slot example ledger makes element 6 of
the buffer equal 3. -/
theorem C6_scalar_direct_ref_witness :
    (buildLedger
      [(ValueType.Symmetric, "stress"), (ValueType.Double, "hardening")]).getDouble
      "hardening" = .ok 6 ∧
    ((buildLedger
      [(ValueType.Symmetric, "stress"), (ValueType.Double, "hardening")]).setDouble
      6 3).storage_[6]? = some 3 :=
  ⟨(C6_scalar_direct_ref _ "hardening" 6 3
      (by decide) (by decide) (by decide)).1,
   (C6_scalar_direct_ref _ "hardening" 6 3
      (by decide) (by decide) (by decide)).2.1⟩

/-- C7 (amended): `get<T>(name)` is a single `const`-qualified member
function — there is no non-const overload, so the C++ type system lets a
caller holding a const ledger handle call the very same `get` — and the
view it returns is always live and mutable: writing through it changes the
buffer, and reading the view back yields what was written.  The code
provides no read-only access path selected by handle constness. -/
theorem C7_mutable_view (h : History) (T : ValueType) (name : String)
    (off : Nat) (v : List ℚ)
    (h1 : mapFind h.loc_ name = some off)
    (h2 : mapFind h.type_ name = some (GetStorageType T))
    (h3 : off + GetStorageSize T ≤ h.storage_.length)
    (h4 : v.length = GetStorageSize T) :
    getIsConstMember = true ∧
    h.get T name = .ok ⟨T, off⟩ ∧
    (h.write ⟨T, off⟩ v).read ⟨T, off⟩ = v :=
  ⟨rfl, (get_write_read h T name off v h1 h2 h3 h4).1,
   (get_write_read h T name off v h1 h2 h3 h4).2.2⟩

/-- Witness for C7's amended theorem. -/
theorem C7_mutable_view_witness :
    getIsConstMember = true ∧
    (buildLedger [(ValueType.Double, "a")]).get ValueType.Double "a"
      = .ok ⟨ValueType.Double, 0⟩ ∧
    ((buildLedger [(ValueType.Double, "a")]).write
        ⟨ValueType.Double, 0⟩ [5]).read ⟨ValueType.Double, 0⟩ = [5] :=
  C7_mutable_view _ ValueType.Double "a" 0 [5]
    (by decide) (by decide) (by decide) (by decide)

/-- Counterexample to C7 as stated: the claim says a `get` through a const
ledger handle cannot mutate the buffer.  But the lone `get` entry point is
`const`-qualified (so it IS the get a const handle performs), and writing
through the view it returns visibly changes the buffer of a concrete
one-scalar ledger. -/
theorem C7_mutable_view_counterexample :
    getIsConstMember = true ∧
    (buildLedger [(ValueType.Double, "a")]).get ValueType.Double "a"
      = .ok ⟨ValueType.Double, 0⟩ ∧
    ((buildLedger [(ValueType.Double, "a")]).write
        ⟨ValueType.Double, 0⟩ [5]).storage_
      ≠ (buildLedger [(ValueType.Double, "a")]).storage_ := by
  refine ⟨rfl, rfl, by decide⟩

/-- C8: the compile-time registry is total on exactly the six supported
value types (the last conjunct: every inhabitant of the closed type of
supported values is one of the six — applying either registry function to
any other C++ type does not compile, since the primary templates are
declared but undefined, which the closed inductive embeds), with footprints
scalar 1, 3-vector 3, skew 3, symmetric 6, general tensor 9, rotation 4 and
the matching tags. -/
theorem C8_registry :
    GetStorageSize ValueType.Double = 1 ∧
    GetStorageSize ValueType.Vector = 3 ∧
    GetStorageSize ValueType.Skew = 3 ∧
    GetStorageSize ValueType.Symmetric = 6 ∧
    GetStorageSize ValueType.RankTwo = 9 ∧
    GetStorageSize ValueType.Orientation = 4 ∧
    GetStorageType ValueType.Double = StorageType.TYPE_SCALAR ∧
    GetStorageType ValueType.Vector = StorageType.TYPE_VECTOR ∧
    GetStorageType ValueType.Skew = StorageType.TYPE_SKEW ∧
    GetStorageType ValueType.Symmetric = StorageType.TYPE_SYMMETRIC ∧
    GetStorageType ValueType.RankTwo = StorageType.TYPE_RANKTWO ∧
    GetStorageType ValueType.Orientation = StorageType.TYPE_ROT ∧
    ∀ T : ValueType,
      T = ValueType.Double ∨ T = ValueType.Vector ∨ T = ValueType.Skew ∨
      T = ValueType.Symmetric ∨ T = ValueType.RankTwo ∨
      T = ValueType.Orientation := by
  refine ⟨rfl, rfl, rfl, rfl, rfl, rfl, rfl, rfl, rfl, rfl, rfl, rfl, ?_⟩
  intro T
  cases T <;> simp

/-- C9: the non-const `get_loc()` / `get_type()` accessors expose the live
maps: a mutation through them (modelled by `set_loc` / `set_type`) installs
exactly the caller's contents with no bounds or consistency check — the new
offset `off` is arbitrary, unrelated to `size_`, and nothing else of the
ledger changes — and a subsequent `get` call uses the altered offset and
tag. -/
theorem C9_live_map_references (h : History) (name : String) (off : Nat)
    (m : List (String × Nat)) (tm : List (String × StorageType)) :
    (h.set_loc m).get_loc = m ∧
    (h.set_type tm).get_type = tm ∧
    (h.set_loc m).size_ = h.size_ ∧
    (h.set_loc m).storage_ = h.storage_ ∧
    (h.set_type tm).storage_ = h.storage_ ∧
    ((h.set_loc [(name, off)]).set_type
        [(name, StorageType.TYPE_SCALAR)]).getDouble name = .ok off := by
  refine ⟨rfl, rfl, rfl, rfl, rfl, ?_⟩
  simp [History.getDouble, History.set_loc, History.set_type, mapFind,
        GetStorageType]

/-- Every entry of the type map after an `add` is either the newly inserted
tag of `T` or was already present — in particular this holds on both the
success path and the resize-failure path. -/
theorem add_type_cases (h : History) (T : ValueType) (n : String) :
    ∀ p ∈ (h.add T n).1.type_, p = (n, GetStorageType T) ∨ p ∈ h.type_ := by
  intro p hp
  by_cases hc : (mapFind h.loc_ n).isSome = true
  · simp only [History.add, if_pos hc] at hp
    exact Or.inr hp
  · simp only [History.add, if_neg hc] at hp
    by_cases hs : h.store_ = true
    · simp only [History.resize, if_pos hs] at hp
      exact List.mem_cons.mp hp
    · simp only [History.resize, if_neg hs] at hp
      exact List.mem_cons.mp hp

/-- Entries of the type map of a ledger built by declarations never carry
the `TYPE_ARRAY` tag. -/
theorem declareAll_type_no_array :
    ∀ (l : List (ValueType × String)) (h : History),
      (∀ p ∈ h.type_, p.2 ≠ StorageType.TYPE_ARRAY) →
      ∀ p ∈ (declareAll h l).type_, p.2 ≠ StorageType.TYPE_ARRAY := by
  intro l
  induction l with
  | nil => intro h hh; exact hh
  | cons q l ih =>
    intro h hh
    obtain ⟨T, n⟩ := q
    refine ih (h.add T n).1 ?_
    intro p hp
    rcases add_type_cases h T n p hp with he | he
    · subst he
      cases T <;> simp [GetStorageType]
    · exact hh p he

/-- C10: the run-time tag enumeration's seventh tag `TYPE_ARRAY` is the
image of no supported value type under the compile-time registry; every
slot created through declarations carries a tag other than `TYPE_ARRAY`
(regardless of whether any declaration failed); and no `get<T>` call can
ever match a slot carrying that tag — such a `get` never returns a view. -/
theorem C10_array_tag :
    (∀ T : ValueType, GetStorageType T ≠ StorageType.TYPE_ARRAY) ∧
    (∀ (l : List (ValueType × String)) (p : String × StorageType),
       p ∈ (buildLedger l).type_ → p.2 ≠ StorageType.TYPE_ARRAY) ∧
    (∀ (h : History) (T : ValueType) (name : String),
       mapFind h.type_ name = some StorageType.TYPE_ARRAY →
       ∀ w : TypedView, h.get T name ≠ .ok w) := by
  refine ⟨?_, ?_, ?_⟩
  · intro T
    cases T <;> simp [GetStorageType]
  · intro l p hp
    exact declareAll_type_no_array l History.empty (by intro p hp; simp [History.empty, History.mk0] at hp) p hp
  · intro h T name htag w
    cases hl : mapFind h.loc_ name with
    | none => simp [History.get, hl]
    | some off =>
      have hne : StorageType.TYPE_ARRAY ≠ GetStorageType T := by
        cases T <;> simp [GetStorageType]
      simp [History.get, hl, htag, hne]

/-- Witness for C10: a ledger whose maps were mutated (through the live
`get_loc`/`get_type` references) to carry a `TYPE_ARRAY` slot rejects a
`get` at every type; here the scalar type at the view it would otherwise
return. -/
theorem C10_array_tag_witness :
    ((History.empty.set_loc [("x", 0)]).set_type
        [("x", StorageType.TYPE_ARRAY)]).get ValueType.Double "x"
      ≠ .ok ⟨ValueType.Double, 0⟩ :=
  C10_array_tag.2.2 _ ValueType.Double "x" (by decide) ⟨ValueType.Double, 0⟩

end neml
